import Mathlib

/-
Verification of the favorites synchronization and idea-list lifecycle of the
startup-name-generator single-page app (source: src/src/App.tsx).

The embedding is shallow: React state is carried explicitly, and the two
external collaborators — the browser localStorage cell together with the
platform JSON codec, and the generative text service — are modelled by small
inductive types describing the outcomes the source code distinguishes.
-/

namespace StartupNameGenerator

/-- `interface StartupIdea { name: string; slogan: string }` from App.tsx.
The source calls the type `StartupIdea`; items are plain string pairs. -/
structure Idea where
  name : String
  slogan : String
  deriving DecidableEq, Repr

/-- The uniqueness invariant of the favorites list: no two entries share a
`name` (the spec's "FavoritesList contains no two entries with equal name"). -/
def NoDupNames (l : List Idea) : Prop :=
  (l.map Idea.name).Nodup

instance (l : List Idea) : Decidable (NoDupNames l) := by
  unfold NoDupNames; infer_instance

/-- `const PREDEFINED_MODIFIERS = [...]` from App.tsx. -/
def PREDEFINED_MODIFIERS : List String :=
  ["Tech", "Eco", "Global", "Labs", "Hub", "AI", "Smart", "Pro", "Cloud",
   "Data", "Health", "Fin"]

/-- The fixed localStorage key, `'startup-favorites'` in App.tsx. -/
def storageKey : String := "startup-favorites"

/-- `toggleFavorite` from App.tsx, the updater passed to `setFavorites`:

    const exists = prev.some(f => f.name === idea.name);
    if (exists) { return prev.filter(f => f.name !== idea.name); }
    return [...prev, idea];
-/
def toggleFavorite (idea : Idea) (prev : List Idea) : List Idea :=
  if prev.any (fun f => f.name == idea.name) then
    prev.filter (fun f => f.name != idea.name)
  else
    prev ++ [idea]

/-- `isFavorite` from App.tsx: `(name) => favorites.some(f => f.name === name)`. -/
def isFavorite (name : String) (favorites : List Idea) : Bool :=
  favorites.any (fun f => f.name == name)

/-- The content of the `startup-favorites` localStorage cell, as the hydrate
effect in App.tsx distinguishes it: `localStorage.getItem` returns null (or
the falsy empty string) — `absent`; it returns a string on which `JSON.parse`
throws — `malformed`; or it returns the JSON serialization of an idea array —
`favs l`. The JSON codec itself is an external platform collaborator, so it
is embedded by this outcome type rather than re-implemented. -/
inductive StoredValue where
  | absent
  | malformed
  | favs (l : List Idea)
  deriving DecidableEq, Repr

/-- The persist effect in App.tsx:
`localStorage.setItem('startup-favorites', JSON.stringify(favorites))`.
For arrays of plain string-field objects, `JSON.stringify` yields a string
that `JSON.parse` maps back to a structurally equal value, so the write is
embedded as storing the list itself. -/
def persist (l : List Idea) : StoredValue :=
  StoredValue.favs l

/-- The hydrate effect in App.tsx (favorites starts as `[]`):

    const saved = localStorage.getItem('startup-favorites');
    if (saved) {
      try { setFavorites(JSON.parse(saved)); }
      catch (e) { console.error('Failed to parse favorites', e); }
    }

On a missing key the guard fails and the initial `[]` stands; on a parse
failure the catch swallows the exception and `[]` stands; otherwise the
parsed array is installed verbatim (no deduplication, no validation). The
function is total: no error reaches the caller. -/
def hydrate : StoredValue → List Idea
  | StoredValue.absent => []
  | StoredValue.malformed => []
  | StoredValue.favs l => l

/-- Whether the hydrate effect logs a diagnostic (`console.error` in the
catch block): only on a parse failure. -/
def hydrateLogsError : StoredValue → Bool
  | StoredValue.malformed => true
  | _ => false

/-- The favorites store: the in-memory list together with the storage cell. -/
structure FavoritesStore where
  favorites : List Idea
  stored : StoredValue
  deriving DecidableEq, Repr

/-- A toggle followed by the persist effect that `useEffect(..., [favorites])`
runs after every favorites update: the whole new list is serialized and
written to the fixed key. -/
def toggleAndPersist (idea : Idea) (st : FavoritesStore) : FavoritesStore :=
  let l := toggleFavorite idea st.favorites
  { favorites := l, stored := persist l }

/-- The two views of App.tsx: `useState<'generate' | 'favorites'>('generate')`. -/
inductive View where
  | generate
  | favorites
  deriving DecidableEq, Repr

/-- The React state of `App` in App.tsx, one field per `useState` hook
(`copiedIndex` and `error` are nullable in the source, hence `Option`). -/
structure AppState where
  industry : String
  keywords : String
  selectedModifiers : List String
  ideas : List Idea
  favorites : List Idea
  loading : Bool
  error : Option String
  copiedIndex : Option Nat
  view : View
  deriving DecidableEq, Repr

/-- The outcome of the one outbound `ai.models.generateContent` call, as the
code in App.tsx distinguishes it: the awaited promise rejects (network, auth
or quota) — `callFailed`; it resolves but `response.text?.trim()` is
undefined or empty, so the code throws `new Error("Failed to generate
ideas.")` — `noText`; the trimmed text is non-empty but `JSON.parse` throws —
`malformedText`; or `JSON.parse` succeeds with an idea array — `parsed l`.
The service and the JSON codec are external collaborators, embedded by this
outcome type. -/
inductive GenOutcome where
  | callFailed
  | noText
  | malformedText
  | parsed (ideas : List Idea)
  deriving DecidableEq, Repr

/-- JavaScript `String.prototype.trim`, used as `industry.trim()` in
App.tsx: strip leading and trailing whitespace. Embedded over the string's
character list (the platform primitive is not Lean-reducible). -/
def jsTrim (s : String) : String :=
  String.mk (((s.data.dropWhile Char.isWhitespace).reverse.dropWhile
    Char.isWhitespace).reverse)

/-- The single user-visible message `setError` receives in the catch block
of `generateIdeas` in App.tsx. -/
def generationErrorMessage : String :=
  "An error occurred while generating ideas. Please try again."

/-- `generateIdeas` from App.tsx, as a function of the pre-state and the
outcome of the external call; the second component counts the outbound
`generateContent` calls the run issues.

    if (!industry.trim()) return;
    setLoading(true); setError(null); setCopiedIndex(null); setView('generate');
    try {
      ...
      const response = await ai.models.generateContent({...});
      const jsonStr = response.text?.trim();
      if (jsonStr) { const parsedIdeas = JSON.parse(jsonStr); setIdeas(parsedIdeas); }
      else { throw new Error("Failed to generate ideas."); }
    } catch (err) { console.error(err); setError("An error occurred while generating ideas. Please try again."); }
    finally { setLoading(false); }

A JS string is falsy exactly when empty, so the guard is `industry.trim = ""`.
All three failure paths reach the same catch block, and the finally block
clears the loading flag on every path; no exception escapes the function. -/
def generateIdeas (s : AppState) (outcome : GenOutcome) : AppState × Nat :=
  if jsTrim s.industry = "" then (s, 0)
  else
    let s1 : AppState :=
      { s with loading := true, error := none, copiedIndex := none,
               view := View.generate }
    match outcome with
    | GenOutcome.callFailed =>
        ({ s1 with error := some generationErrorMessage, loading := false }, 1)
    | GenOutcome.noText =>
        ({ s1 with error := some generationErrorMessage, loading := false }, 1)
    | GenOutcome.malformedText =>
        ({ s1 with error := some generationErrorMessage, loading := false }, 1)
    | GenOutcome.parsed l =>
        ({ s1 with ideas := l, loading := false }, 1)

/- ### Helper lemmas about the favorites list -/

/-- If no element of `l` matches `p`, filtering by the negation keeps `l`. -/
theorem filter_not_eq_self_of_all_not {p : Idea → Bool} {l : List Idea}
    (h : ∀ f ∈ l, p f = false) : l.filter (fun f => !(p f)) = l := by
  induction l with
  | nil => rfl
  | cons a l ih =>
    have ha := h a (List.mem_cons_self a l)
    simp only [List.filter_cons, ha, Bool.not_false, if_pos]
    exact congrArg (a :: ·) (ih fun f hf => h f (List.mem_cons_of_mem a hf))

/-- Under the uniqueness invariant, removing every entry named `n` agrees with
removing the first entry named `n`: filtering equals `eraseP`. -/
theorem filter_ne_eq_eraseP (n : String) (l : List Idea)
    (h : (l.map Idea.name).Nodup) :
    l.filter (fun f => f.name != n) = l.eraseP (fun f => f.name == n) := by
  induction l with
  | nil => rfl
  | cons a l ih =>
    rw [List.map_cons, List.nodup_cons] at h
    by_cases ha : a.name = n
    · have hnotin : ∀ f ∈ l, (f.name == n) = false := by
        intro f hf
        have : f.name ≠ n := fun e => h.1 (ha ▸ e ▸ List.mem_map_of_mem Idea.name hf)
        simpa using this
      have hfil : l.filter (fun f => f.name != n) = l := by
        have := filter_not_eq_self_of_all_not (p := fun f => f.name == n) hnotin
        simpa [bne] using this
      have hat : (a.name == n) = true := by simpa using ha
      have hbne : (a.name != n) = false := by simp [bne, hat]
      rw [List.filter_cons, List.eraseP_cons, hat, hbne]
      simp [hfil]
    · have hat : (a.name == n) = false := by simpa using ha
      have hbne : (a.name != n) = true := by simp [bne, hat]
      rw [List.filter_cons, List.eraseP_cons, hat, hbne]
      simp [ih h.2]

/- ### Claim theorems: favorites store -/

/-- C1, counterexample: hydrating storage that parses as an idea array with
two entries named "Vitalis" (e.g. externally written) installs that array
verbatim, so hydrate-from-storage does not preserve the uniqueness
invariant and the FavoritesList does not satisfy it at all times. -/
theorem hydrate_breaks_uniqueness :
    ¬ NoDupNames (hydrate (StoredValue.favs
      [Idea.mk "Vitalis" "Health, Amplified", Idea.mk "Vitalis" "Other"])) := by
  decide

/-- C1, amended: toggle preserves the uniqueness invariant on any list
satisfying it, and hydrate preserves it on storage the app itself persisted
from an invariant-satisfying list; hydrating externally written storage that
parses as an idea array with duplicate names does not. -/
theorem uniqueness_preserved (idea : Idea) (l : List Idea)
    (h : NoDupNames l) :
    NoDupNames (toggleFavorite idea l) ∧ NoDupNames (hydrate (persist l)) := by
  refine ⟨?_, h⟩
  unfold toggleFavorite NoDupNames
  by_cases hx : l.any (fun f => f.name == idea.name) = true
  · rw [if_pos hx]
    exact List.Nodup.sublist (List.Sublist.map Idea.name (List.filter_sublist l)) h
  · rw [if_neg hx]
    rw [List.map_append, List.map_singleton]
    refine List.Nodup.append h (List.nodup_singleton idea.name) ?_
    intro x hx1 hx2
    rw [List.mem_singleton] at hx2
    subst hx2
    obtain ⟨f, hf, hfn⟩ := List.mem_map.mp hx1
    exact hx (List.any_eq_true.mpr ⟨f, hf, by simp [hfn]⟩)

/-- Closed instance of `uniqueness_preserved` at a concrete two-element
invariant-satisfying list. -/
theorem uniqueness_preserved_witness :
    NoDupNames [Idea.mk "Alpha" "a", Idea.mk "Beta" "b"] ∧
    (NoDupNames (toggleFavorite (Idea.mk "Alpha" "x")
        [Idea.mk "Alpha" "a", Idea.mk "Beta" "b"]) ∧
     NoDupNames (hydrate (persist [Idea.mk "Alpha" "a", Idea.mk "Beta" "b"]))) :=
  ⟨by decide, uniqueness_preserved (Idea.mk "Alpha" "x")
    [Idea.mk "Alpha" "a", Idea.mk "Beta" "b"] (by decide)⟩

/-- C2, counterexample: on the invariant-satisfying list [Alpha, Beta],
toggling Alpha twice yields [Beta, Alpha] — not equal in order to the
original list, so toggle-twice is not an involution as stated. -/
theorem toggle_not_involution :
    NoDupNames [Idea.mk "Alpha" "a", Idea.mk "Beta" "b"] ∧
    toggleFavorite (Idea.mk "Alpha" "a")
        (toggleFavorite (Idea.mk "Alpha" "a")
          [Idea.mk "Alpha" "a", Idea.mk "Beta" "b"])
      ≠ [Idea.mk "Alpha" "a", Idea.mk "Beta" "b"] := by
  decide

/-- C2, amended: toggling `a` twice restores the list whenever `a.name` is
not among the favorites' names (add then remove); when an entry with that
name is already present, the double toggle removes it and re-appends `a` at
the end, which in general changes the order and the stored slogan. -/
theorem toggle_involution_when_absent (a : Idea) (l : List Idea)
    (h : l.all (fun f => f.name != a.name) = true) :
    toggleFavorite a (toggleFavorite a l) = l := by
  have hall : ∀ f ∈ l, f.name ≠ a.name := by
    intro f hf
    simpa using List.all_eq_true.mp h f hf
  have h1 : ¬ l.any (fun f => f.name == a.name) = true := by
    intro hcon
    obtain ⟨f, hf, hfn⟩ := List.any_eq_true.mp hcon
    exact hall f hf (by simpa using hfn)
  have hfirst : toggleFavorite a l = l ++ [a] := by
    unfold toggleFavorite
    rw [if_neg h1]
  rw [hfirst]
  unfold toggleFavorite
  have h2 : (l ++ [a]).any (fun f => f.name == a.name) = true :=
    List.any_eq_true.mpr ⟨a, by simp, by simp⟩
  rw [if_pos h2, List.filter_append]
  have hl : l.filter (fun f => f.name != a.name) = l :=
    List.filter_eq_self.mpr (fun f hf => by simpa using hall f hf)
  have ha : ([a].filter (fun f => f.name != a.name)) = [] := by
    simp
  rw [hl, ha, List.append_nil]

/-- Closed instance of `toggle_involution_when_absent`: double-toggling an
idea absent from a concrete list restores the list. -/
theorem toggle_involution_when_absent_witness :
    ([Idea.mk "Beta" "b"].all (fun f => f.name != (Idea.mk "Alpha" "a").name)
      = true) ∧
    toggleFavorite (Idea.mk "Alpha" "a")
        (toggleFavorite (Idea.mk "Alpha" "a") [Idea.mk "Beta" "b"])
      = [Idea.mk "Beta" "b"] :=
  ⟨by decide, toggle_involution_when_absent (Idea.mk "Alpha" "a")
    [Idea.mk "Beta" "b"] (by decide)⟩

/-- C3: under the uniqueness invariant, toggle removes the unique entry
whose name matches (equivalently the first match, `eraseP`) when one
exists, otherwise appends the idea at the end; the resulting list is then
fully re-persisted to the storage cell. -/
theorem toggle_contract (idea : Idea) (st : FavoritesStore)
    (h : NoDupNames st.favorites) :
    (toggleAndPersist idea st).favorites
      = (if isFavorite idea.name st.favorites then
           st.favorites.eraseP (fun f => f.name == idea.name)
         else st.favorites ++ [idea]) ∧
    (toggleAndPersist idea st).stored
      = persist (toggleAndPersist idea st).favorites := by
  refine ⟨?_, rfl⟩
  show toggleFavorite idea st.favorites = _
  unfold toggleFavorite isFavorite
  by_cases hx : st.favorites.any (fun f => f.name == idea.name) = true
  · rw [if_pos hx, if_pos hx]
    exact filter_ne_eq_eraseP idea.name st.favorites h
  · rw [if_neg hx, if_neg hx]

/-- Closed instance of `toggle_contract` at a concrete store whose list
contains the toggled name. -/
theorem toggle_contract_witness :
    NoDupNames [Idea.mk "Alpha" "a", Idea.mk "Beta" "b"] ∧
    ((toggleAndPersist (Idea.mk "Alpha" "x")
        (FavoritesStore.mk [Idea.mk "Alpha" "a", Idea.mk "Beta" "b"]
          StoredValue.absent)).favorites
      = (if isFavorite (Idea.mk "Alpha" "x").name
            [Idea.mk "Alpha" "a", Idea.mk "Beta" "b"] then
           [Idea.mk "Alpha" "a", Idea.mk "Beta" "b"].eraseP
             (fun f => f.name == (Idea.mk "Alpha" "x").name)
         else [Idea.mk "Alpha" "a", Idea.mk "Beta" "b"] ++ [Idea.mk "Alpha" "x"]) ∧
     (toggleAndPersist (Idea.mk "Alpha" "x")
        (FavoritesStore.mk [Idea.mk "Alpha" "a", Idea.mk "Beta" "b"]
          StoredValue.absent)).stored
      = persist (toggleAndPersist (Idea.mk "Alpha" "x")
          (FavoritesStore.mk [Idea.mk "Alpha" "a", Idea.mk "Beta" "b"]
            StoredValue.absent)).favorites) :=
  ⟨by decide, toggle_contract (Idea.mk "Alpha" "x")
    (FavoritesStore.mk [Idea.mk "Alpha" "a", Idea.mk "Beta" "b"]
      StoredValue.absent) (by decide)⟩

/-- C4: persisting a FavoritesList to the storage key and hydrating from it
yields a list equal to the original in both order and contents. -/
theorem persist_hydrate_roundtrip (l : List Idea) : hydrate (persist l) = l :=
  rfl

/-- C5: hydrate returns the empty list when the storage key is missing, and
returns the empty list — logging a diagnostic and, being a total function,
raising no error visible to the caller — when the stored value fails to
parse. -/
theorem hydrate_failure_semantics :
    hydrate StoredValue.absent = [] ∧
    hydrate StoredValue.malformed = [] ∧
    hydrateLogsError StoredValue.malformed = true ∧
    hydrateLogsError StoredValue.absent = false :=
  ⟨rfl, rfl, rfl, rfl⟩

/-- C10: on any list in which the toggled name occurs — duplicates included —
toggle returns exactly the entries whose name differs, in their original
relative order (a filter, hence a sublist with no matching entry left). -/
theorem toggle_removes_all_matches (idea : Idea) (l : List Idea)
    (h : idea.name ∈ l.map Idea.name) :
    toggleFavorite idea l = l.filter (fun f => f.name != idea.name) ∧
    (toggleFavorite idea l).all (fun f => f.name != idea.name) = true ∧
    (toggleFavorite idea l).Sublist l := by
  have hx : l.any (fun f => f.name == idea.name) = true := by
    obtain ⟨f, hf, hfn⟩ := List.mem_map.mp h
    exact List.any_eq_true.mpr ⟨f, hf, by simp [hfn]⟩
  have ht : toggleFavorite idea l = l.filter (fun f => f.name != idea.name) := by
    unfold toggleFavorite
    rw [if_pos hx]
  refine ⟨ht, ?_, ?_⟩
  · rw [ht]
    exact List.all_eq_true.mpr (fun f hf => (List.mem_filter.mp hf).2)
  · rw [ht]
    exact List.filter_sublist l

/-- Closed instance of `toggle_removes_all_matches` at a list holding two
entries named "X": both are removed. -/
theorem toggle_removes_all_matches_witness :
    ((Idea.mk "X" "0").name
      ∈ ([Idea.mk "X" "1", Idea.mk "Y" "2", Idea.mk "X" "3"].map Idea.name)) ∧
    (toggleFavorite (Idea.mk "X" "0") [Idea.mk "X" "1", Idea.mk "Y" "2", Idea.mk "X" "3"]
        = [Idea.mk "X" "1", Idea.mk "Y" "2", Idea.mk "X" "3"].filter
            (fun f => f.name != (Idea.mk "X" "0").name) ∧
     (toggleFavorite (Idea.mk "X" "0") [Idea.mk "X" "1", Idea.mk "Y" "2", Idea.mk "X" "3"]).all
            (fun f => f.name != (Idea.mk "X" "0").name) = true ∧
     (toggleFavorite (Idea.mk "X" "0")
        [Idea.mk "X" "1", Idea.mk "Y" "2", Idea.mk "X" "3"]).Sublist
          [Idea.mk "X" "1", Idea.mk "Y" "2", Idea.mk "X" "3"]) :=
  ⟨by decide, toggle_removes_all_matches (Idea.mk "X" "0")
    [Idea.mk "X" "1", Idea.mk "Y" "2", Idea.mk "X" "3"] (by decide)⟩

/- ### Claim theorems: idea generation adapter -/

/-- A concrete app state whose industry field is whitespace-only (used to
instantiate the generator theorems). -/
def blankIndustryState : AppState :=
  ⟨"   ", "green", ["Tech"], [], [Idea.mk "Vitalis" "Health, Amplified"],
   false, none, none, View.favorites⟩

/-- A concrete app state with a non-empty industry field. -/
def readyState : AppState :=
  ⟨"AI Healthcare", "", [], [], [Idea.mk "Vitalis" "Health, Amplified"],
   false, none, none, View.generate⟩

/-- C6: when the industry field is empty after trimming, generateIdeas
issues zero outbound calls and leaves the whole state unchanged, raising no
error, whatever the keywords, modifiers and call outcome are. -/
theorem generate_empty_industry_noop (s : AppState) (o : GenOutcome)
    (h : jsTrim s.industry = "") :
    generateIdeas s o = (s, 0) := by
  unfold generateIdeas
  rw [if_pos h]

/-- Closed instance of `generate_empty_industry_noop` at a whitespace-only
industry. -/
theorem generate_empty_industry_noop_witness :
    jsTrim blankIndustryState.industry = "" ∧
    generateIdeas blankIndustryState GenOutcome.callFailed
      = (blankIndustryState, 0) :=
  ⟨by decide, generate_empty_industry_noop blankIndustryState
    GenOutcome.callFailed (by decide)⟩

/-- C7: when the industry field is non-empty after trimming, generateIdeas
issues exactly one outbound call on every outcome, and on a successfully
parsed payload it replaces the generated-ideas list wholesale with the
returned sequence, order preserved. -/
theorem generate_success_contract (s : AppState) (o : GenOutcome)
    (l : List Idea) (h : jsTrim s.industry ≠ "") :
    (generateIdeas s o).2 = 1 ∧
    ((generateIdeas s (GenOutcome.parsed l)).1).ideas = l := by
  constructor
  · cases o <;> simp [generateIdeas, h]
  · simp [generateIdeas, h]

/-- Closed instance of `generate_success_contract`: one call issued on a
failing outcome too, and the parsed sequence is installed verbatim. -/
theorem generate_success_contract_witness :
    jsTrim readyState.industry ≠ "" ∧
    ((generateIdeas readyState GenOutcome.noText).2 = 1 ∧
     ((generateIdeas readyState
        (GenOutcome.parsed [Idea.mk "Vitalis" "Health, Amplified"])).1).ideas
       = [Idea.mk "Vitalis" "Health, Amplified"]) :=
  ⟨by decide, generate_success_contract readyState GenOutcome.noText
    [Idea.mk "Vitalis" "Health, Amplified"] (by decide)⟩

/-- C8: every failure outcome of generateIdeas — the call failing, no text
payload, or a malformed payload — sets the same single user-visible error
message, with no kind distinction; the loading flag is cleared on each path
and the function is total, so no failure escapes as an exception. -/
theorem generate_failure_uniform_error (s : AppState)
    (h : jsTrim s.industry ≠ "") :
    (generateIdeas s GenOutcome.callFailed).1.error
        = some generationErrorMessage ∧
    (generateIdeas s GenOutcome.noText).1.error
        = some generationErrorMessage ∧
    (generateIdeas s GenOutcome.malformedText).1.error
        = some generationErrorMessage ∧
    (generateIdeas s GenOutcome.callFailed).1.loading = false ∧
    (generateIdeas s GenOutcome.noText).1.loading = false ∧
    (generateIdeas s GenOutcome.malformedText).1.loading = false := by
  refine ⟨?_, ?_, ?_, ?_, ?_, ?_⟩ <;> simp [generateIdeas, h]

/-- Closed instance of `generate_failure_uniform_error` at a concrete
non-empty industry. -/
theorem generate_failure_uniform_error_witness :
    jsTrim readyState.industry ≠ "" ∧
    ((generateIdeas readyState GenOutcome.callFailed).1.error
        = some generationErrorMessage ∧
     (generateIdeas readyState GenOutcome.noText).1.error
        = some generationErrorMessage ∧
     (generateIdeas readyState GenOutcome.malformedText).1.error
        = some generationErrorMessage ∧
     (generateIdeas readyState GenOutcome.callFailed).1.loading = false ∧
     (generateIdeas readyState GenOutcome.noText).1.loading = false ∧
     (generateIdeas readyState GenOutcome.malformedText).1.loading = false) :=
  ⟨by decide, generate_failure_uniform_error readyState (by decide)⟩

/-- C9: on every input state and every outcome — success, any failure, or
the empty-industry no-op — generateIdeas leaves the FavoritesList
unchanged. -/
theorem generate_preserves_favorites (s : AppState) (o : GenOutcome) :
    ((generateIdeas s o).1).favorites = s.favorites := by
  by_cases h : jsTrim s.industry = "" <;> cases o <;>
    simp [generateIdeas, h]

end StartupNameGenerator
